import Mathlib

/-!
Shallow embedding of the inventory-management-system repository (Node.js,
Express, Sequelize over MySQL) and proofs about its sale-creation
transaction, product catalog and query surface.

Modelled source files:
* src/services/saleService.js      (createSale, findSales, stockReduction)
* src/repositories/productRepository.js (saveProduct, updateProduct, findProductById)
* src/repositories/saleRepository.js    (createSale, findSales)
* src/services/productService.js        (updateProduct)
* src/models (Product, Sale, products_sales join table)
* src/errors (ValidationError, NotFoundError, UniqueConstraintError,
  NotModifiedError, NumberOutOfRangeError with their HTTP status fields)

Numbers are modelled as Int (JS numbers on integral values; the in-memory
stock may go negative before the range check in stockReduction, exactly as
in the source). The database is a Store value; a Sequelize transaction is
modelled by threading a transaction-local Store through the steps and
publishing it only on commit, while rollback returns the entry Store.

A load-bearing source fact: src/models/index.js reads
sequelize.models.products_sales into ProductSale before the belongsToMany
calls define that through-model, so the exported ProductSale is undefined
and the join-row step of createSale (ProductSale.bulkCreate) throws a
TypeError on every invocation that reaches it. No sale can ever commit;
the embedding models that step as an unconditional generic error.
-/

/-- Product row: id (surrogate key), unique barcode, name, stock, prices. -/
structure Product where
  id : Int
  barcode : String
  name : String
  stock : Int
  costPrice : Int
  salePrice : Int
deriving Repr, DecidableEq

/-- Sale header row: quantity (count of line items), total, cash flag. -/
structure Sale where
  id : Int
  quantity : Int
  total : Int
  isCash : Bool
deriving Repr, DecidableEq

/-- Row of the products_sales join table: the two foreign keys, nothing else. -/
structure ProductSale where
  productId : Int
  saleId : Int
deriving Repr, DecidableEq

/-- Committed database state: the three tables. -/
structure Store where
  products : List Product
  sales : List Sale
  productSales : List ProductSale
deriving Repr, DecidableEq

/-- Application error kinds, named after the classes in src/errors:
NotFoundError, NumberOutOfRangeError (insufficient stock),
NotModifiedError (zero rows affected), UniqueConstraintError (duplicate
barcode), ValidationError, and a generic storage failure (an error that is
rethrown untranslated). -/
inductive Err where
  | notFound
  | numberOutOfRange
  | notModified
  | uniqueConstraint
  | validation
  | generic
deriving Repr, DecidableEq

/-- HTTP status carried by each error class (the .status field of the error
classes in src/errors; errors without a status are answered with 500 by the
controllers). -/
def errStatus : Err → Nat
  | .notFound => 404
  | .numberOutOfRange => 400
  | .notModified => 400
  | .uniqueConstraint => 409
  | .validation => 400
  | .generic => 500

/-- Driver-level (Sequelize) errors: a unique-index violation
(SequelizeUniqueConstraintError) or any other storage failure. -/
inductive DbErr where
  | uniqueViolation
  | failure
deriving Repr, DecidableEq

/-- Product.findByPk: point lookup by primary key. -/
def findByPk (st : Store) (id : Int) : Option Product :=
  st.products.find? (fun p => p.id == id)

/-- Comparison of the writable columns of a product row (everything except
the primary key). -/
def sameFields (p q : Product) : Bool :=
  p.barcode == q.barcode && p.name == q.name && p.stock == q.stock &&
    p.costPrice == q.costPrice && p.salePrice == q.salePrice

/-- Overwrite the writable columns of a row with the values of an update. -/
def applyFields (d q : Product) : Product :=
  { q with barcode := d.barcode, name := d.name, stock := d.stock,
           costPrice := d.costPrice, salePrice := d.salePrice }

/-- Product.update({barcode,name,stock,costPrice,salePrice}, {where:{id}}):
a MySQL UPDATE. It reports the number of rows actually changed (Sequelize
on MySQL reports changed rows, which is what lets callers detect a no-op
update), and it raises the driver unique-index error when the written
barcode collides with a different row. -/
def dbUpdateProduct (d : Product) (st : Store) : Except DbErr (Nat × Store) :=
  match findByPk st d.id with
  | none => .ok (0, st)
  | some r =>
    if st.products.any (fun q => q.id != d.id && q.barcode == d.barcode) then
      .error .uniqueViolation
    else if sameFields r d then
      .ok (0, st)
    else
      .ok (1, { st with
        products := st.products.map (fun q => if q.id == d.id then applyFields d q else q) })

/-- productRepository.updateProduct: forwards the update, translating the
driver unique-index error (err.name === SequelizeUniqueConstraintError)
into UniqueConstraintError and rethrowing anything else. -/
def updateProduct (d : Product) (st : Store) : Except Err (Nat × Store) :=
  match dbUpdateProduct d st with
  | .ok r => .ok r
  | .error .uniqueViolation => .error .uniqueConstraint
  | .error .failure => .error .generic

/-- Fresh AUTO_INCREMENT id for a product insert. -/
def freshProductId (st : Store) : Int :=
  st.products.foldl (fun m p => max m p.id) 0 + 1

/-- Product.create: INSERT honoring the unique index on barcode. -/
def dbCreateProduct (barcode name : String) (stock costPrice salePrice : Int)
    (st : Store) : Except DbErr (Product × Store) :=
  if st.products.any (fun q => q.barcode == barcode) then
    .error .uniqueViolation
  else
    let p : Product := { id := freshProductId st, barcode := barcode, name := name,
                         stock := stock, costPrice := costPrice, salePrice := salePrice }
    .ok (p, { st with products := st.products ++ [p] })

/-- productRepository.saveProduct: creates the row, translating the driver
unique-index error into UniqueConstraintError and rethrowing anything
else. -/
def saveProduct (barcode name : String) (stock costPrice salePrice : Int)
    (st : Store) : Except Err (Product × Store) :=
  match dbCreateProduct barcode name stock costPrice salePrice st with
  | .ok r => .ok r
  | .error .uniqueViolation => .error .uniqueConstraint
  | .error .failure => .error .generic

/-- productRepository.findProductById (Product.findByPk outside any
transaction). -/
def findProductById (st : Store) (id : Int) : Option Product :=
  findByPk st id

/-- One entry of the request body of a sale: product id and unit count. -/
structure SaleItem where
  id : Int
  quantity : Int
deriving Repr, DecidableEq

/-- First half of saleService.stockReduction, up to its await: the
in-memory decrement (product.stock -= quantity) followed by the range
check that throws NumberOutOfRangeError on a negative result. -/
def stockCheck (product : Product) (quantity : Int) : Except Err Product :=
  let product := { product with stock := product.stock - quantity }
  if product.stock < 0 then .error .numberOutOfRange
  else .ok product

/-- Second half of saleService.stockReduction, after its await: persist the
decremented row through productRepository.updateProduct and throw
NotModifiedError when fewer than one row was affected. -/
def stockPersist (product : Product) (st : Store) : Except Err Store :=
  match updateProduct product st with
  | .error e => .error e
  | .ok (affectedRows, st1) =>
    if affectedRows < 1 then .error .notModified else .ok st1

/-- saleService.stockReduction as written in the source: decrement the
in-memory stock, reject a negative result with NumberOutOfRangeError, then
persist through updateProduct and reject zero affected rows with
NotModifiedError. -/
def stockReduction (product : Product) (quantity : Int) (st : Store) : Except Err Store :=
  let product := { product with stock := product.stock - quantity }
  if product.stock < 0 then .error .numberOutOfRange
  else
    match updateProduct product st with
    | .error e => .error e
    | .ok (affectedRows, st1) =>
      if affectedRows < 1 then .error .notModified else .ok st1

/-- Work done for one sale item at the moment its findByPk resolves: the
NotFoundError check and the synchronous first half of stockReduction.
createSale maps the items with Promise.all, so every closure runs up to
its first await before any closure resumes: every findByPk is issued (and
on the transaction connection executed) before any closure reaches the
update inside stockReduction. Every fetch therefore reads the transaction
state as of entry, which is the Store this function receives. -/
def fetchItem (st : Store) (item : SaleItem) : Except Err (Product × Int) :=
  match findByPk st item.id with
  | none => .error .notFound
  | some product =>
    match stockCheck product item.quantity with
    | .error e => .error e
    | .ok product1 => .ok (product1, item.quantity)

/-- Fetch-and-check phase of createSale over all items, in list order,
combined as Promise.all combines the item closures: the list of results
when every closure succeeds, otherwise the first rejection to settle. The
closures reject in the order their fetches resolve, which on the single
transaction connection is list order, so the first failing item provides
the error. Every item reads the entry state (the fetches all execute
before any update). -/
def fetchPhase : List SaleItem → Store → Except Err (List (Product × Int))
  | [], _ => .ok []
  | item :: rest, st =>
    match fetchItem st item with
    | .error e => .error e
    | .ok pq =>
      match fetchPhase rest st with
      | .error e => .error e
      | .ok pqs => .ok (pq :: pqs)

/-- Update phase of createSale: the persist halves of stockReduction run in
item order once the fetches have resolved, each against the transaction
state left by the previous one. -/
def updatePhase : List (Product × Int) → Store → Except Err Store
  | [], st => .ok st
  | (p, _) :: rest, st =>
    match stockPersist p st with
    | .error e => .error e
    | .ok st1 => updatePhase rest st1

/-- Fresh AUTO_INCREMENT id for a sale insert. -/
def freshSaleId (st : Store) : Int :=
  st.sales.foldl (fun m s => max m s.id) 0 + 1

/-- saleRepository.createSale: Sale.create({quantity, total, isCash})
within the transaction. -/
def createSaleRecord (quantity total : Int) (isCash : Bool) (st : Store) : Sale × Store :=
  let sale : Sale := { id := freshSaleId st, quantity := quantity, total := total,
                       isCash := isCash }
  (sale, { st with sales := st.sales ++ [sale] })

/-- Transaction body of saleService.createSale: the Promise.all over the
items (fetch phase, then update phase), the running total reduced from the
per-item salePrice * quantity contributions, the sale-header insert within
the transaction, and then the join step. The Bool parameter exposes the
storage layer's ability to fail the header insert (thrown and caught by
the catch block). The join step always throws: src/models/index.js reads
sequelize.models.products_sales before the belongsToMany calls define that
through-model, so the exported ProductSale is undefined and
ProductSale.bulkCreate raises a TypeError on every invocation that reaches
it — the body can never return the created sale. -/
def createSaleTxn (items : List SaleItem) (isCash : Bool) (hdrFail : Bool)
    (st : Store) : Except Err (Store × Sale) :=
  match fetchPhase items st with
  | .error e => .error e
  | .ok fetched =>
    match updatePhase fetched st with
    | .error e => .error e
    | .ok st1 =>
      let saleTotal := fetched.foldl (fun acc pq => acc + pq.1.salePrice * pq.2) 0
      if hdrFail then .error .generic
      else
        let _inserted := createSaleRecord (Int.ofNat fetched.length) saleTotal isCash st1
        .error .generic

/-- saleService.createSale: open a transaction, run the body, commit the
transaction-local state on success (the source's commit-and-return lines,
unreachable because the body always throws at the join step); on any
thrown error roll back — the committed state stays the entry state — and
propagate the error. -/
def createSale (items : List SaleItem) (isCash : Bool) (hdrFail : Bool)
    (st : Store) : Store × Except Err Sale :=
  match createSaleTxn items isCash hdrFail st with
  | .ok (st1, sale) => (st1, .ok sale)
  | .error e => (st, .error e)

/-- Whether a createSale result carries a created sale. -/
def saleCommitted (r : Store × Except Err Sale) : Bool :=
  match r.2 with
  | .ok _ => true
  | .error _ => false

/-- productService.updateProduct: look the product up by id (NotFoundError
when absent), push the full-record update through the repository, and
require exactly one affected row (NotModifiedError otherwise). No
transaction is involved and no field of the incoming record is checked. -/
def updateProductService (d : Product) (st : Store) : Store × Except Err Product :=
  match findProductById st d.id with
  | none => (st, .error .notFound)
  | some _ =>
    match updateProduct d st with
    | .error e => (st, .error e)
    | .ok (affectedRows, st1) =>
      if affectedRows == 1 then (st1, .ok d) else (st1, .error .notModified)

/-- saleRepository.findSales: Sale.findAll, optionally with the Products
association included; the sale rows returned are the same either way. -/
def findSalesRepo (st : Store) : List Sale :=
  st.sales

/-- saleService.findSales: fetch all sales and throw NotFoundError when the
list is empty; otherwise return the list (after stripping join metadata
from the eager-loaded association, which does not change the sale rows). -/
def findSales (withProducts : Bool) (st : Store) : Except Err (List Sale) :=
  let data := findSalesRepo st
  if data.length == 0 then .error .notFound
  else .ok data

/-! Trace of the store operations a createSale invocation issues on its
transaction connection, in execution order. The order follows from the
JavaScript semantics of Promise.all over items.map(async ...): each
closure runs synchronously up to its first await, so the findByPk queries
of all items are enqueued, in list order, before any closure resumes; the
queries of one connection execute in enqueue order, so every fetch
executes before any stock update. As each fetch resolves (in list order),
its closure either rejects at once or enqueues its stock UPDATE, so the
updates of every item before the first failing one are issued even when a
later-settling rejection aborts the call, and they execute in item order
after all fetches. The header insert runs only when every closure
fulfilled; the join step issues no store operation at all (the TypeError
on the undefined ProductSale is thrown before any query), and the commit
is never reached. -/

/-- One store operation of a createSale invocation, tagged with the index
of the sale item it serves (the header insert serves no single item). -/
inductive SaleOp where
  | fetchOp (itemIdx : Nat) (productId : Int)
  | updateOp (itemIdx : Nat) (productId : Int)
  | insertSaleOp
deriving Repr, DecidableEq

/-- Index of the sale item an operation serves, when there is one. -/
def SaleOp.itemIdx? : SaleOp → Option Nat
  | .fetchOp i _ => some i
  | .updateOp i _ => some i
  | .insertSaleOp => none

/-- Whether an operation is a product fetch. -/
def SaleOp.isFetch : SaleOp → Bool
  | .fetchOp _ _ => true
  | _ => false

/-- Fetch operations of a createSale invocation: one findByPk per item, in
list order, all issued synchronously when Promise.all starts the item
closures. -/
def fetchOps (items : List SaleItem) : List SaleOp :=
  items.enum.map (fun p => SaleOp.fetchOp p.1 p.2.id)

/-- Per-item results of the closures that pass their fetch-time checks
before the first failing item: exactly these closures issue their stock
UPDATE, each at its own fetch's resolution, before any later rejection
settles. -/
def fetchPassing : List SaleItem → Store → List (Product × Int)
  | [], _ => []
  | item :: rest, st =>
    match fetchItem st item with
    | .error _ => []
    | .ok pq => pq :: fetchPassing rest st

/-- Stock-update operations issued for the passing items, in item order. -/
def updateOpsOf : List (Product × Int) → Nat → List SaleOp
  | [], _ => []
  | (p, _) :: rest, i => SaleOp.updateOp i p.id :: updateOpsOf rest (i + 1)

/-- Operation trace of a createSale invocation (without a storage-layer
header failure): all fetches in item order, then the updates of the items
that passed their fetch-time checks, then the header insert when every
closure fulfilled. No join operation ever appears and no run commits: the
program throws on the undefined ProductSale right after the header
insert. -/
def createSaleTrace (items : List SaleItem) (st : Store) : List SaleOp :=
  fetchOps items ++ updateOpsOf (fetchPassing items st) 0 ++
    match fetchPhase items st with
    | .error _ => []
    | .ok fetched =>
      match updatePhase fetched st with
      | .error _ => []
      | .ok _ => [SaleOp.insertSaleOp]

/-- Whether a list of item indices never decreases. -/
def nondecreasing : List Nat → Bool
  | [] => true
  | [_] => true
  | a :: b :: rest => decide (a ≤ b) && nondecreasing (b :: rest)

/-- Formalization of per-item sequential processing: along the trace, the
item indices of the item-serving operations never decrease, i.e. every
operation of item i precedes every operation of item i + 1. -/
def itemSequential (ops : List SaleOp) : Bool :=
  nondecreasing (ops.filterMap SaleOp.itemIdx?)

/-! Definitions taken from the specification's wording, to compare the
code against. -/

/-- Sale price of a product as currently stored (only used where the
product is present). -/
def priceOf (st : Store) (id : Int) : Int :=
  match findByPk st id with
  | some p => p.salePrice
  | none => 0

/-- Total demanded by the specification: the sum over the items of the
stored salePrice at call time multiplied by the item quantity. -/
def specSaleTotal (items : List SaleItem) (st : Store) : Int :=
  (items.map (fun it => priceOf st it.id * it.quantity)).sum

/-- Number of distinct products named by a request, per the
specification's reading of the quantity field. -/
def distinctProductCount (items : List SaleItem) : Nat :=
  ((items.map SaleItem.id).dedup).length

/-- Specification invariant: no stored product has negative stock. -/
def allStocksNonneg (st : Store) : Bool :=
  st.products.all (fun p => 0 ≤ p.stock)

/-- Well-formed store: primary keys and barcodes are unique, as the
database schema enforces. -/
def Store.wf (st : Store) : Prop :=
  (st.products.map Product.id).Nodup ∧ (st.products.map Product.barcode).Nodup

/-! Helper lemmas. -/

/-- Whenever the transaction body throws, the committed state is the entry
state: createSale rolls back before propagating the error. -/
theorem createSale_error_store {items : List SaleItem} {isCash hf : Bool}
    {st st1 : Store} {e : Err}
    (h : createSale items isCash hf st = (st1, .error e)) : st1 = st := by
  unfold createSale at h
  cases htx : createSaleTxn items isCash hf st with
  | ok r => rw [htx] at h; simp at h
  | error e2 => rw [htx] at h; exact (Prod.mk.injEq .. ▸ h).1.symm

/-- The transaction body never returns the created sale: every invocation
that survives the item phases and the header insert throws at the join
step (the undefined ProductSale). -/
theorem createSaleTxn_not_ok {items : List SaleItem} {isCash hf : Bool}
    {st : Store} {r : Store × Sale}
    (h : createSaleTxn items isCash hf st = .ok r) : False := by
  unfold createSaleTxn at h
  split at h
  · cases h
  · split at h
    · cases h
    · split at h
      · cases h
      · simp at h

/-- No createSale invocation ever commits a sale. -/
theorem createSale_never_commits (items : List SaleItem) (isCash hf : Bool)
    (st : Store) : saleCommitted (createSale items isCash hf st) = false := by
  unfold createSale
  split
  · rename_i st1 sale heq
    exact (createSaleTxn_not_ok heq).elim
  · rfl

/-- Propositional form: a createSale result never carries an ok sale. -/
theorem createSale_ne_ok {items : List SaleItem} {isCash hf : Bool}
    {st st1 : Store} {sale : Sale}
    (h : createSale items isCash hf st = (st1, .ok sale)) : False := by
  have hc := createSale_never_commits items isCash hf st
  rw [h] at hc
  simp [saleCommitted] at hc

/-- With unique ids, the point lookup of a stored product's id returns
exactly that product. -/
theorem find_id_of_mem {l : List Product} {p : Product}
    (hn : (l.map Product.id).Nodup) (hm : p ∈ l) :
    l.find? (fun q => q.id == p.id) = some p := by
  induction l with
  | nil => cases hm
  | cons a t ih =>
    simp only [List.map_cons, List.nodup_cons] at hn
    rcases List.mem_cons.mp hm with rfl | hmt
    · simp [List.find?]
    · have ha : (a.id == p.id) = false := by
        have hpt : p.id ∈ t.map Product.id := List.mem_map_of_mem _ hmt
        simp only [beq_eq_false_iff_ne, ne_eq]
        intro hid
        exact hn.1 (hid ▸ hpt)
      rw [List.find?_cons_of_neg _ (by simp [ha]), ih hn.2 hmt]

/-- Decomposition of a successful fetch-phase step for one item. -/
theorem fetchItem_ok {st : Store} {item : SaleItem} {pq : Product × Int}
    (h : fetchItem st item = .ok pq) :
    ∃ p, findByPk st item.id = some p ∧
      pq.1 = { p with stock := p.stock - item.quantity } ∧
      0 ≤ p.stock - item.quantity ∧ pq.2 = item.quantity := by
  unfold fetchItem at h
  cases hf : findByPk st item.id with
  | none => rw [hf] at h; cases h
  | some p =>
    rw [hf] at h
    unfold stockCheck at h
    by_cases hs : p.stock - item.quantity < 0
    · simp only [if_pos hs] at h; cases h
    · simp only [if_neg hs] at h
      injection h with h
      exact ⟨p, rfl, h ▸ rfl, by omega, h ▸ rfl⟩

/-- A successful fetch phase yields one result per item. -/
theorem fetchPhase_length {items : List SaleItem} {st : Store}
    {fetched : List (Product × Int)}
    (h : fetchPhase items st = .ok fetched) : fetched.length = items.length := by
  induction items generalizing fetched with
  | nil =>
    unfold fetchPhase at h
    injection h with h
    subst h
    rfl
  | cons item rest ih =>
    unfold fetchPhase at h
    cases h1 : fetchItem st item <;> rw [h1] at h
    · cases h
    · cases h2 : fetchPhase rest st <;> rw [h2] at h
      · cases h
      · injection h with h
        subst h
        simp [ih h2]

/-- The running total reduced over a successful fetch phase is the
specification's total: the per-item stored salePrice at entry times the
item's quantity, summed. -/
theorem fetchPhase_total {items : List SaleItem} {st : Store}
    {fetched : List (Product × Int)}
    (h : fetchPhase items st = .ok fetched) (init : Int) :
    fetched.foldl (fun acc pq => acc + pq.1.salePrice * pq.2) init =
      init + specSaleTotal items st := by
  induction items generalizing fetched init with
  | nil =>
    unfold fetchPhase at h
    injection h with h
    subst h
    simp [specSaleTotal]
  | cons item rest ih =>
    unfold fetchPhase at h
    cases h1 : fetchItem st item <;> rw [h1] at h
    · cases h
    · cases h2 : fetchPhase rest st <;> rw [h2] at h
      · cases h
      · injection h with h
        subst h
        rename_i pq pqs
        obtain ⟨p, hfind, hp1, _, hq⟩ := fetchItem_ok h1
        have hprice : pq.1.salePrice = priceOf st item.id := by
          rw [hp1]
          unfold priceOf
          rw [hfind]
        simp only [List.foldl_cons, ih h2]
        simp only [specSaleTotal, List.map_cons, List.sum_cons, hprice, hq]
        ring

/-- One fetch operation is issued per item. -/
theorem fetchOps_length (items : List SaleItem) :
    (fetchOps items).length = items.length := by
  unfold fetchOps
  rw [List.length_map, List.enum_length]

/-- The issued stock updates contain no fetch operation. -/
theorem updateOpsOf_no_fetch (ps : List (Product × Int)) (i : Nat) :
    (updateOpsOf ps i).all (fun op => !SaleOp.isFetch op) = true := by
  induction ps generalizing i with
  | nil => rfl
  | cons pq rest ih =>
    unfold updateOpsOf
    simp only [List.all_cons, Bool.and_eq_true]
    exact ⟨rfl, ih ..⟩

/-- When some requested product is absent and every present product passes
its stock check, the fetch phase fails with NotFoundError: the absent
product's rejection is the first to settle. -/
theorem fetchPhase_notFound {items : List SaleItem} {st : Store}
    (hmiss : ∃ it ∈ items, findByPk st it.id = none)
    (hpass : ∀ it ∈ items, ∀ p, findByPk st it.id = some p →
      0 ≤ p.stock - it.quantity) :
    fetchPhase items st = .error .notFound := by
  induction items with
  | nil => obtain ⟨it, hin, _⟩ := hmiss; cases hin
  | cons item rest ih =>
    unfold fetchPhase
    cases hf1 : findByPk st item.id with
    | none =>
      have hfi : fetchItem st item = .error .notFound := by
        unfold fetchItem
        simp only [hf1]
      simp only [hfi]
    | some p =>
      have hnn : 0 ≤ p.stock - item.quantity :=
        hpass item (List.mem_cons_self ..) p hf1
      have hsc : stockCheck p item.quantity =
          .ok { p with stock := p.stock - item.quantity } := by
        have hred : stockCheck p item.quantity =
            if p.stock - item.quantity < 0 then .error .numberOutOfRange
            else .ok { p with stock := p.stock - item.quantity } := rfl
        rw [hred, if_neg (by omega)]
      have hfi : fetchItem st item =
          .ok ({ p with stock := p.stock - item.quantity }, item.quantity) := by
        unfold fetchItem
        simp only [hf1, hsc]
      have hrest : fetchPhase rest st = .error .notFound := by
        apply ih
        · obtain ⟨it, hin, hnone⟩ := hmiss
          rcases List.mem_cons.mp hin with rfl | hinrest
          · rw [hf1] at hnone; cases hnone
          · exact ⟨it, hinrest, hnone⟩
        · intro it hin q hq
          exact hpass it (List.mem_cons_of_mem _ hin) q hq
      simp only [hfi, hrest]

/-- C1: whenever createSale(saleItems, isCash) fails for any reason at any
step — missing product, insufficient stock, zero-rows update, a failed
sale-header insert, or the join-row step (which in this program always
throws) — the whole transaction is rolled back before the error
propagates: every product's persisted stock, the sale headers and the
join rows are exactly those of the state before the call. -/
theorem createSale_rolls_back_on_failure (items : List SaleItem)
    (isCash hdrFail : Bool) (st st1 : Store) (e : Err)
    (h : createSale items isCash hdrFail st = (st1, .error e)) :
    st1.products = st.products ∧ st1.sales = st.sales ∧
      st1.productSales = st.productSales := by
  rw [createSale_error_store h]
  exact ⟨rfl, rfl, rfl⟩

/-- Witness for C1: a concrete failing invocation (absent product id 1 in
an empty store) satisfies the hypothesis, and the conclusion holds there. -/
theorem createSale_rolls_back_on_failure_witness :
    (createSale [⟨1, 1⟩] true false ⟨[], [], []⟩ =
      ((⟨[], [], []⟩ : Store), Except.error Err.notFound)) ∧
    ((⟨[], [], []⟩ : Store).products = (⟨[], [], []⟩ : Store).products ∧
      (⟨[], [], []⟩ : Store).sales = (⟨[], [], []⟩ : Store).sales ∧
      (⟨[], [], []⟩ : Store).productSales = (⟨[], [], []⟩ : Store).productSales) :=
  ⟨rfl, createSale_rolls_back_on_failure [⟨1, 1⟩] true false
    ⟨[], [], []⟩ ⟨[], [], []⟩ Err.notFound rfl⟩

/-- C2 (code bug): the claim quantifies over successful createSale
invocations, but none exists — src/models/index.js exports ProductSale as
undefined (it is read from sequelize.models before belongsToMany defines
products_sales), so every invocation throws a TypeError at
ProductSale.bulkCreate and rolls back; in particular the specification's
end-to-end gum scenario fails with a generic error and persists nothing.
The total the program does compute and hand to the sale store once every
item closure has fulfilled is exactly the call-time price sum the claim
demands, so the claim is the intent and the join-step import is the
slip. -/
theorem sale_total_commit_bug :
    (∀ items isCash hf st, saleCommitted (createSale items isCash hf st) = false) ∧
    createSale [⟨1, 3⟩] true false ⟨[⟨1, "123", "gum", 10, 5, 10⟩], [], []⟩ =
      (⟨[⟨1, "123", "gum", 10, 5, 10⟩], [], []⟩, .error .generic) ∧
    (∀ items st fetched, fetchPhase items st = .ok fetched →
      fetched.foldl (fun acc pq => acc + pq.1.salePrice * pq.2) 0 =
        specSaleTotal items st) := by
  refine ⟨fun items isCash hf st => createSale_never_commits items isCash hf st,
    rfl, fun items st fetched h => ?_⟩
  rw [fetchPhase_total h 0]
  omega

/-- Witness for C2's quantified half: the gum scenario's fetch phase
fulfils, and the reduced total equals the call-time price sum 30. -/
theorem sale_total_commit_bug_witness :
    fetchPhase [⟨1, 3⟩] ⟨[⟨1, "123", "gum", 10, 5, 10⟩], [], []⟩ =
      .ok [(⟨1, "123", "gum", 7, 5, 10⟩, 3)] ∧
    ([((⟨1, "123", "gum", 7, 5, 10⟩ : Product), (3 : Int))].foldl
        (fun acc pq => acc + pq.1.salePrice * pq.2) 0 =
      specSaleTotal [⟨1, 3⟩] ⟨[⟨1, "123", "gum", 10, 5, 10⟩], [], []⟩) :=
  ⟨rfl, sale_total_commit_bug.2.2 [⟨1, 3⟩]
    ⟨[⟨1, "123", "gum", 10, 5, 10⟩], [], []⟩
    [(⟨1, "123", "gum", 7, 5, 10⟩, 3)] rfl⟩

/-- C3 (code bug): no sale is ever stored — every createSale throws a
TypeError at ProductSale.bulkCreate (the undefined import) — so no stored
quantity exists to compare against the distinct-product count; a request
naming product 1 twice runs its item phases and fails at the join step
with everything rolled back. The quantity the program computes for the
header it attempts to store is the number of request lines
(products.length), which agrees with the distinct-product count exactly
when no product id repeats — and under the through-table's composite key
a sale with a repeated product id could not be stored anyway. -/
theorem sale_quantity_commit_bug :
    (∀ items isCash hf st, saleCommitted (createSale items isCash hf st) = false) ∧
    createSale [⟨1, 1⟩, ⟨1, 2⟩] true false ⟨[⟨1, "b", "n", 5, 1, 10⟩], [], []⟩ =
      (⟨[⟨1, "b", "n", 5, 1, 10⟩], [], []⟩, .error .generic) ∧
    distinctProductCount [⟨1, 1⟩, ⟨1, 2⟩] = 1 ∧
    (∀ items st fetched, fetchPhase items st = .ok fetched →
      Int.ofNat fetched.length = (items.length : Int) ∧
        ((items.map SaleItem.id).Nodup →
          distinctProductCount items = items.length)) := by
  refine ⟨fun items isCash hf st => createSale_never_commits items isCash hf st,
    rfl, rfl, fun items st fetched h => ⟨?_, fun hnd => ?_⟩⟩
  · rw [fetchPhase_length h]
    rfl
  · unfold distinctProductCount
    rw [List.dedup_eq_self.mpr hnd, List.length_map]

/-- Witness for C3's quantified half at the duplicate-line request. -/
theorem sale_quantity_commit_bug_witness :
    fetchPhase [⟨1, 1⟩, ⟨1, 2⟩] ⟨[⟨1, "b", "n", 5, 1, 10⟩], [], []⟩ =
      .ok [(⟨1, "b", "n", 4, 1, 10⟩, 1), (⟨1, "b", "n", 3, 1, 10⟩, 2)] ∧
    Int.ofNat ([((⟨1, "b", "n", 4, 1, 10⟩ : Product), (1 : Int)),
        (⟨1, "b", "n", 3, 1, 10⟩, 2)].length) =
      (([⟨1, 1⟩, ⟨1, 2⟩] : List SaleItem).length : Int) :=
  ⟨rfl, (sale_quantity_commit_bug.2.2.2 [⟨1, 1⟩, ⟨1, 2⟩]
    ⟨[⟨1, "b", "n", 5, 1, 10⟩], [], []⟩
    [(⟨1, "b", "n", 4, 1, 10⟩, 1), (⟨1, "b", "n", 3, 1, 10⟩, 2)] rfl).1⟩

/-- C10: findSales on a state with no sales does not return an empty list
but fails with NotFoundError; with at least one sale it returns the full
list. -/
theorem findSales_empty_is_error (withProducts : Bool) (st : Store) :
    (st.sales = [] → findSales withProducts st = .error .notFound) ∧
    (st.sales ≠ [] → findSales withProducts st = .ok st.sales) := by
  unfold findSales findSalesRepo
  constructor
  · intro h
    rw [h]
    rfl
  · intro h
    cases hs : st.sales with
    | nil => exact absurd hs h
    | cons a t => rfl

/-- Witness for C10: the empty store errors, a one-sale store lists. -/
theorem findSales_empty_is_error_witness :
    findSales true ⟨[], [], []⟩ = .error .notFound ∧
    findSales true ⟨[], [⟨1, 1, 30, true⟩], []⟩ = .ok [⟨1, 1, 30, true⟩] :=
  ⟨(findSales_empty_is_error true ⟨[], [], []⟩).1 rfl,
    (findSales_empty_is_error true ⟨[], [⟨1, 1, 30, true⟩], []⟩).2 (by decide)⟩

/-- C9: creating a product whose barcode is already stored fails with the
distinct UniqueConstraintError kind, which carries HTTP status 409 and is
distinguishable from a generic (500) storage failure; a fresh barcode
raises no such error. -/
theorem duplicate_barcode_conflict (bc nm : String) (stk cp sp : Int) (st : Store) :
    ((∃ p ∈ st.products, p.barcode = bc) →
      saveProduct bc nm stk cp sp st = .error .uniqueConstraint ∧
      errStatus .uniqueConstraint = 409 ∧
      Err.uniqueConstraint ≠ Err.generic ∧ errStatus .generic = 500) ∧
    ((∀ p ∈ st.products, p.barcode ≠ bc) →
      ∃ pr st1, saveProduct bc nm stk cp sp st = .ok (pr, st1)) := by
  constructor
  · rintro ⟨p, hp, hbar⟩
    have hany : st.products.any (fun q => q.barcode == bc) = true := by
      rw [List.any_eq_true]
      exact ⟨p, hp, by simp [hbar]⟩
    refine ⟨?_, rfl, by decide, rfl⟩
    unfold saveProduct dbCreateProduct
    rw [if_pos hany]
  · intro hnone
    have hany : st.products.any (fun q => q.barcode == bc) = false := by
      rw [List.any_eq_false]
      intro q hq
      simp only [beq_iff_eq]
      exact hnone q hq
    refine ⟨⟨freshProductId st, bc, nm, stk, cp, sp⟩,
      { st with products :=
          st.products ++ [⟨freshProductId st, bc, nm, stk, cp, sp⟩] }, ?_⟩
    unfold saveProduct dbCreateProduct
    rw [if_neg (by rw [hany]; exact Bool.false_ne_true)]

/-- Witness for C9: both branches at concrete stores. -/
theorem duplicate_barcode_conflict_witness :
    saveProduct "123" "mint" 4 1 2 ⟨[⟨1, "123", "gum", 10, 5, 10⟩], [], []⟩ =
      .error .uniqueConstraint ∧
    (∃ pr st1, saveProduct "124" "mint" 4 1 2
      ⟨[⟨1, "123", "gum", 10, 5, 10⟩], [], []⟩ = .ok (pr, st1)) :=
  ⟨((duplicate_barcode_conflict "123" "mint" 4 1 2
      ⟨[⟨1, "123", "gum", 10, 5, 10⟩], [], []⟩).1
      ⟨⟨1, "123", "gum", 10, 5, 10⟩, by decide, rfl⟩).1,
    (duplicate_barcode_conflict "124" "mint" 4 1 2
      ⟨[⟨1, "123", "gum", 10, 5, 10⟩], [], []⟩).2 (by decide)⟩

/-- C6: a stock update that reports zero affected rows, on an item whose
range check passed, fails the operation with the distinct
NotModifiedError kind (StockUpdateConflict: not the insufficient-stock
kind, not a generic failure), and any createSale error leaves the
committed state untouched. -/
theorem zero_rows_is_conflict (p : Product) (q : Int) (st : Store)
    (hs : 0 ≤ p.stock - q)
    (hup : updateProduct { p with stock := p.stock - q } st = .ok (0, st)) :
    stockReduction p q st = .error .notModified ∧
    Err.notModified ≠ Err.numberOutOfRange ∧ Err.notModified ≠ Err.generic ∧
    (∀ items isCash hf st0 st1,
      createSale items isCash hf st0 = (st1, .error .notModified) → st1 = st0) := by
  refine ⟨?_, by decide, by decide,
    fun items isCash hf st0 st1 h => createSale_error_store h⟩
  have hred : stockReduction p q st =
      if p.stock - q < 0 then Except.error Err.numberOutOfRange
      else stockPersist { p with stock := p.stock - q } st := rfl
  rw [hred, if_neg (by omega)]
  unfold stockPersist
  rw [hup]
  rfl

/-- Witness for C6: a row deleted out from under the transaction (product
1 absent from the store) makes the update report zero rows. -/
theorem zero_rows_is_conflict_witness :
    ((0 : Int) ≤ (Product.mk 1 "b" "n" 2 1 1).stock - 1) ∧
    stockReduction ⟨1, "b", "n", 2, 1, 1⟩ 1 ⟨[], [], []⟩ =
      .error .notModified :=
  ⟨by decide, (zero_rows_is_conflict ⟨1, "b", "n", 2, 1, 1⟩ 1 ⟨[], [], []⟩
    (by decide) rfl).1⟩

/-- C4 counterexample: a real two-item run (which, like every run, fails
at the join step and rolls back) interleaves the items — both fetches are
issued before item 1's stock update, so the store operations of item 1 do
not complete before item 2's first store operation is issued. -/
theorem per_item_sequencing_cx :
    itemSequential (createSaleTrace [⟨1, 1⟩, ⟨2, 1⟩]
        ⟨[⟨1, "a", "x", 5, 1, 10⟩, ⟨2, "b", "y", 5, 1, 10⟩], [], []⟩) = false ∧
    createSaleTrace [⟨1, 1⟩, ⟨2, 1⟩]
        ⟨[⟨1, "a", "x", 5, 1, 10⟩, ⟨2, "b", "y", 5, 1, 10⟩], [], []⟩ =
      [.fetchOp 0 1, .fetchOp 1 2, .updateOp 0 1, .updateOp 1 2,
        .insertSaleOp] ∧
    (createSale [⟨1, 1⟩, ⟨2, 1⟩] true false
        ⟨[⟨1, "a", "x", 5, 1, 10⟩, ⟨2, "b", "y", 5, 1, 10⟩], [], []⟩).2 =
      Except.error Err.generic :=
  ⟨rfl, rfl, rfl⟩

/-- C4 amended: the per-item work is initiated in list order but runs
concurrently under Promise.all: the first |items| operations of every
invocation's trace are the product fetches of all items in list order,
and no operation after them is a fetch — every fetch is issued before any
stock update and before the header insert (the join step issues no store
operation: the program throws on the undefined ProductSale first). -/
theorem fetches_precede_updates (items : List SaleItem) (st : Store) :
    (createSaleTrace items st).take items.length = fetchOps items ∧
    ((createSaleTrace items st).drop items.length).all
      (fun op => !SaleOp.isFetch op) = true := by
  have hlen : (fetchOps items).length = items.length := fetchOps_length items
  constructor
  · unfold createSaleTrace
    rw [List.append_assoc, ← hlen, List.take_left]
  · unfold createSaleTrace
    rw [List.append_assoc, ← hlen, List.drop_left]
    simp only [List.all_append, Bool.and_eq_true]
    constructor
    · exact updateOpsOf_no_fetch ..
    · split
      · rfl
      · split
        · rfl
        · rfl

/-- C7 counterexample: a request naming absent product 2 after an
insufficient-stock line for product 1 fails with NumberOutOfRangeError
(insufficient stock), not NotFoundError — the missing product does not
determine the error kind when an earlier line fails first. No sale row is
created either way. -/
theorem missing_product_kind_cx :
    createSale [⟨1, 1⟩, ⟨2, 1⟩] true false
        ⟨[⟨1, "b", "n", 0, 1, 1⟩], [], []⟩ =
      (⟨[⟨1, "b", "n", 0, 1, 1⟩], [], []⟩, Except.error Err.numberOutOfRange) ∧
    findByPk ⟨[⟨1, "b", "n", 0, 1, 1⟩], [], []⟩ 2 = none ∧
    Err.numberOutOfRange ≠ Err.notFound :=
  ⟨rfl, rfl, by decide⟩

/-- C7 amended: an invocation naming an absent product always fails with a
rolled-back state (no sale header is created), at whichever position the
missing product occupies; the error kind is NotFoundError provided every
line whose product exists passes its stock check (otherwise the earliest
failing line's kind is reported). -/
theorem missing_product_fails (items : List SaleItem) (isCash hf : Bool)
    (st : Store) (hmiss : ∃ it ∈ items, findByPk st it.id = none) :
    (∃ e, createSale items isCash hf st = (st, .error e)) ∧
    ((∀ it ∈ items, ∀ p, findByPk st it.id = some p →
        0 ≤ p.stock - it.quantity) →
      createSale items isCash hf st = (st, .error .notFound)) := by
  constructor
  · cases hres : createSale items isCash hf st with
    | mk st1 r =>
      cases r with
      | ok sale => exact (createSale_ne_ok hres).elim
      | error e =>
        have hst1 : st1 = st := createSale_error_store hres
        exact ⟨e, by rw [hst1]⟩
  · intro hpass
    have hfe : fetchPhase items st = .error .notFound :=
      fetchPhase_notFound hmiss hpass
    unfold createSale createSaleTxn
    simp only [hfe]

/-- Witness for C7 (amended): a single-line request for absent id 9999 in
a one-product store fails with NotFoundError and leaves the store as it
was. -/
theorem missing_product_fails_witness :
    (∃ it ∈ ([⟨9999, 1⟩] : List SaleItem),
      findByPk ⟨[⟨1, "123", "gum", 10, 5, 10⟩], [], []⟩ it.id = none) ∧
    createSale [⟨9999, 1⟩] false false
        ⟨[⟨1, "123", "gum", 10, 5, 10⟩], [], []⟩ =
      ((⟨[⟨1, "123", "gum", 10, 5, 10⟩], [], []⟩ : Store),
        Except.error Err.notFound) :=
  ⟨⟨⟨9999, 1⟩, by decide, rfl⟩,
    (missing_product_fails [⟨9999, 1⟩] false false
      ⟨[⟨1, "123", "gum", 10, 5, 10⟩], [], []⟩
      ⟨⟨9999, 1⟩, by decide, rfl⟩).2
      (by
        intro it hin p hp
        rcases List.mem_cons.mp hin with rfl | hrest
        · cases hp
        · cases hrest)⟩

/-- C8: the sale path preserves the non-negative-stock invariant — from a
committed state with all stocks non-negative, createSale commits a state
with all stocks still non-negative (in this program every invocation
rolls back, leaving the entry state) — but the catalog's explicit update
does not: productService.updateProduct writes the caller-supplied stock
verbatim, so a full-record update carrying stock -1 commits a state with
a negative stock and reports success. -/
theorem stock_invariant_status :
    (∀ items isCash hf st, allStocksNonneg st = true →
      allStocksNonneg (createSale items isCash hf st).1 = true) ∧
    (allStocksNonneg ⟨[⟨1, "b", "n", 5, 1, 2⟩], [], []⟩ = true ∧
      updateProductService ⟨1, "b", "n", -1, 1, 2⟩
          ⟨[⟨1, "b", "n", 5, 1, 2⟩], [], []⟩ =
        (⟨[⟨1, "b", "n", -1, 1, 2⟩], [], []⟩, .ok ⟨1, "b", "n", -1, 1, 2⟩) ∧
      allStocksNonneg ⟨[⟨1, "b", "n", -1, 1, 2⟩], [], []⟩ = false) := by
  constructor
  · intro items isCash hf st hall
    cases hres : createSale items isCash hf st with
    | mk st1 r =>
      cases r with
      | error e =>
        show allStocksNonneg st1 = true
        rw [createSale_error_store hres]
        exact hall
      | ok sale => exact (createSale_ne_ok hres).elim
  · exact ⟨rfl, rfl, rfl⟩

/-- Witness for C8's universally quantified half at a concrete
invocation. -/
theorem stock_invariant_status_witness :
    allStocksNonneg ⟨[⟨1, "b", "n", 5, 1, 2⟩], [], []⟩ = true ∧
    allStocksNonneg (createSale [⟨1, 2⟩] true false
      ⟨[⟨1, "b", "n", 5, 1, 2⟩], [], []⟩).1 = true :=
  ⟨rfl, stock_invariant_status.1 [⟨1, 2⟩] true false
    ⟨[⟨1, "b", "n", 5, 1, 2⟩], [], []⟩ rfl⟩

/-- C5 (code bug): the insufficient-stock half of the boundary holds — a
single-line request for stock + 1 units fails with NumberOutOfRangeError
and leaves the whole store, hence the stock, unchanged — but the success
half is impossible in this program: a request for exactly the stock on
hand passes every check, decrements within the transaction and inserts
the header, then throws a TypeError at ProductSale.bulkCreate (the
undefined import) and rolls back, so no request commits and the persisted
stock stays at its old value. -/
theorem stock_boundary_bug :
    (∀ st p isCash hf, Store.wf st → p ∈ st.products → 1 ≤ p.stock →
      createSale [⟨p.id, p.stock + 1⟩] isCash hf st =
        (st, .error .numberOutOfRange)) ∧
    createSale [⟨1, 5⟩] true false ⟨[⟨1, "a", "n", 5, 2, 10⟩], [], []⟩ =
      (⟨[⟨1, "a", "n", 5, 2, 10⟩], [], []⟩, .error .generic) ∧
    (∀ items isCash hf st,
      saleCommitted (createSale items isCash hf st) = false) := by
  refine ⟨fun st p isCash hf hwf hmem hs => ?_, rfl,
    fun items isCash hf st => createSale_never_commits items isCash hf st⟩
  have hfind : findByPk st p.id = some p := find_id_of_mem hwf.1 hmem
  have hsc : stockCheck p (p.stock + 1) = .error .numberOutOfRange := by
    have hred : stockCheck p (p.stock + 1) =
        if p.stock - (p.stock + 1) < 0 then Except.error Err.numberOutOfRange
        else .ok { p with stock := p.stock - (p.stock + 1) } := rfl
    rw [hred, if_pos (by omega)]
  have hfi : fetchItem st ⟨p.id, p.stock + 1⟩ = .error .numberOutOfRange := by
    unfold fetchItem
    simp only [hfind, hsc]
  have hfe : fetchPhase [⟨p.id, p.stock + 1⟩] st = .error .numberOutOfRange := by
    unfold fetchPhase
    simp only [hfi]
  unfold createSale createSaleTxn
  simp only [hfe]

/-- Witness for C5's quantified half at a concrete one-product store with
stock 5: selling 6 units fails with the insufficient-stock kind and
changes nothing. -/
theorem stock_boundary_bug_witness :
    Store.wf ⟨[⟨1, "a", "n", 5, 2, 10⟩], [], []⟩ ∧
    createSale [⟨1, 6⟩] true false ⟨[⟨1, "a", "n", 5, 2, 10⟩], [], []⟩ =
      ((⟨[⟨1, "a", "n", 5, 2, 10⟩], [], []⟩ : Store),
        Except.error Err.numberOutOfRange) :=
  ⟨⟨by decide, by decide⟩,
    stock_boundary_bug.1 ⟨[⟨1, "a", "n", 5, 2, 10⟩], [], []⟩
      ⟨1, "a", "n", 5, 2, 10⟩ true false ⟨by decide, by decide⟩
      (by decide) (by decide)⟩
